import Mathlib

/-!
Verification of the `restartables` retry combinator (`src/lib.rs`, `src/outcome.rs`).

The Rust library wraps a future (`Operation`) in a `Restartable` adaptor that, on
each poll (resumption), polls the inner future, classifies a resolved value with a
`test` closure, and either resolves, restarts the inner future via a `factory`, or
stays pending, subject to an optional `timeout` deadline.

Embedding choices:
* Time (`Instant` / `Duration`) is modelled by `Nat` instants; `start.elapsed()`
  becomes `now - start` (Rust's `Instant` is monotone, so truncated subtraction
  agrees).  Each resumption is given the current instant `now` as a parameter.
* Polling the owned inner future is modelled by an input `inner : Poll R` per
  resumption: the environment decides whether the operation is still suspended or
  resolves with a value, which over-approximates every possible inner future.
* The single `(this.factory)()` call and the single `cx.waker().wake_by_ref()` call
  in the restart branch of `Restartable::poll` are instrumented as the
  `factoryCalls` and `wakes` counts of the poll output, so that "the factory is
  invoked exactly once / the waker is signalled" are stateable facts.
* Rust `Result<T, E>` is `Except E T` (`Ok` is `.ok`, `Err` is `.error`).
-/

/-- Rust's `std::task::Poll`. -/
inductive Poll (A : Type) where
  | Pending : Poll A
  | Ready : A → Poll A
deriving DecidableEq, Repr

/-- `Poll::map`, used in `poll` as `this.future.as_mut().poll(cx).map(this.test)`. -/
def Poll.map {A B : Type} (f : A → B) : Poll A → Poll B
  | .Pending => .Pending
  | .Ready a => .Ready (f a)

/-- `Success<T>` from `src/outcome.rs`: the value plus metrics. -/
structure Success (T : Type) where
  value : T
  duration : Nat
  restarts : Nat
deriving DecidableEq, Repr

/-- `Failure<E>` from `src/outcome.rs`: timeout, or last test error plus restart count. -/
inductive Failure (E : Type) where
  | Timeout : Failure E
  | Err : (error : E) → (restarts : Nat) → Failure E
deriving DecidableEq, Repr

/-- The state of `Restartable<Fut, Test, Factory, T, E>` from `src/lib.rs` (fields in
source order).  The factory `Fn() -> Fut` is `Unit → Fut`; the test
`Fn(Fut::Output) -> Result<T, E>` is `R → Except E T` where `R = Fut::Output`. -/
structure Restartable (Fut R T E : Type) where
  future : Fut
  start : Option Nat
  factory : Unit → Fut
  timeout : Option Nat
  test : R → Except E T
  restarts : Nat

/-- `Restartable::new`: builds the initial future by calling the factory, stores the
timeout and test, and initialises `start = None`, `restarts = 0`. -/
def Restartable.new {Fut R T E : Type} (factory : Unit → Fut) (timeout : Option Nat)
    (test : R → Except E T) : Restartable Fut R T E where
  future := factory ()
  factory := factory
  timeout := timeout
  test := test
  start := none
  restarts := 0

/-- The timed-out computation of `Restartable::poll`:
`if let Some(timeout) = *this.timeout { elapsed > timeout } else { false }`. -/
def timedOut (timeout : Option Nat) (elapsed : Nat) : Bool :=
  match timeout with
  | some t => decide (t < elapsed)
  | none => false

/-- Everything one call to `Restartable::poll` produces: the `Poll` return value, the
combinator state afterwards, and how many times the factory and the waker were
invoked during the call. -/
structure PollOut (Fut R T E : Type) where
  result : Poll (Except (Failure E) (Success T))
  state : Restartable Fut R T E
  factoryCalls : Nat
  wakes : Nat

/-- `Restartable::poll` from `src/lib.rs`.  `inner` is what polling the owned inner
future yields on this resumption; `now` is the current instant (used both by
`get_or_insert_with(Instant::now)` and by `start.elapsed()`). -/
def Restartable.poll {Fut R T E : Type} (self : Restartable Fut R T E) (inner : Poll R)
    (now : Nat) : PollOut Fut R T E :=
  let start := self.start.getD now
  let this : Restartable Fut R T E := { self with start := some start }
  let inner_poll := inner.map this.test
  let elapsed := now - start
  let timed_out := timedOut this.timeout elapsed
  match inner_poll, timed_out with
  | .Pending, true => ⟨.Ready (.error .Timeout), this, 0, 0⟩
  | .Pending, false => ⟨.Pending, this, 0, 0⟩
  | .Ready (.ok resp), _ =>
      ⟨.Ready (.ok { value := resp, duration := elapsed, restarts := this.restarts }),
        this, 0, 0⟩
  | .Ready (.error _), false =>
      ⟨.Pending, { this with future := this.factory (), restarts := this.restarts + 1 },
        1, 1⟩
  | .Ready (.error e), true =>
      ⟨.Ready (.error (.Err e this.restarts)), this, 0, 0⟩

/-- Drive the combinator through a sequence of resumptions, each given by the inner
future's behaviour and the current instant; `some r` is the resolved output, `none`
means the combinator is still suspended after the whole sequence. -/
def runPoll {Fut R T E : Type} (s : Restartable Fut R T E) :
    List (Poll R × Nat) → Option (Except (Failure E) (Success T))
  | [] => none
  | (inner, now) :: rest =>
    let o := s.poll inner now
    match o.result with
    | .Ready r => some r
    | .Pending => runPoll o.state rest

/-- A run's full bookkeeping: resolved output (if any), final combinator state, and
the total number of factory invocations (= restarts performed) during the run. -/
structure RunOut (Fut R T E : Type) where
  result : Option (Except (Failure E) (Success T))
  state : Restartable Fut R T E
  restarted : Nat

/-- Like `runPoll` but also returns the final state and the number of restarts the
run performed (the run stops at the first resolved poll). -/
def runFull {Fut R T E : Type} (s : Restartable Fut R T E) :
    List (Poll R × Nat) → RunOut Fut R T E
  | [] => ⟨none, s, 0⟩
  | (inner, now) :: rest =>
    let o := s.poll inner now
    match o.result with
    | .Ready r => ⟨some r, o.state, o.factoryCalls⟩
    | .Pending =>
        let rec_out := runFull o.state rest
        ⟨rec_out.result, rec_out.state, o.factoryCalls + rec_out.restarted⟩

/-- A concrete factory for witnesses: every fresh operation is the value `0`. -/
def sampleFactory : Unit → Nat := fun _ => 0

/-- A concrete classifier for witnesses: accepts even numbers, rejects odd ones. -/
def sampleTest : Nat → Except Nat Nat := fun r => if r % 2 = 0 then .ok r else .error r

/-- A concrete combinator state (deadline 5, start recorded at instant 0) used by
the witnesses. -/
def sampleState : Restartable Nat Nat Nat Nat where
  future := 0
  start := some 0
  factory := sampleFactory
  timeout := some 5
  test := sampleTest
  restarts := 0

/-- Claim C1: on any resumption where the inner operation resolves and the
classifier passes, the combinator resolves to `Success { value, duration, restarts }`
regardless of the deadline state — a passing classification is never converted into
`Timeout` or `Err`. -/
theorem poll_ok_resolves_success {Fut R T E : Type} (s : Restartable Fut R T E)
    (r : R) (v : T) (now : Nat) (h : s.test r = .ok v) :
    (s.poll (.Ready r) now).result =
      .Ready (.ok { value := v, duration := now - s.start.getD now,
                    restarts := s.restarts }) := by
  cases s
  simp_all [Restartable.poll, Poll.map]

/-- Witness for C1 at a resumption where the deadline (5) has long passed
(elapsed 100): the passing value still yields the success outcome. -/
theorem poll_ok_resolves_success_witness :
    (sampleState.poll (.Ready 4) 100).result =
      .Ready (.ok { value := 4, duration := 100, restarts := 0 }) :=
  poll_ok_resolves_success sampleState 4 4 100 rfl

/-- Claim C2: inner resolved, classifier fails, deadline not exceeded: the combinator
installs a fresh operation from the factory (exactly one factory call), increments
`restarts` by exactly one, wakes its own waker once for immediate re-resumption, and
returns `Pending` instead of resolving. -/
theorem poll_err_inTime_restarts {Fut R T E : Type} (s : Restartable Fut R T E)
    (r : R) (e : E) (now : Nat) (h : s.test r = .error e)
    (ht : timedOut s.timeout (now - s.start.getD now) = false) :
    (s.poll (.Ready r) now).result = .Pending ∧
    (s.poll (.Ready r) now).state.future = s.factory () ∧
    (s.poll (.Ready r) now).state.restarts = s.restarts + 1 ∧
    (s.poll (.Ready r) now).factoryCalls = 1 ∧
    (s.poll (.Ready r) now).wakes = 1 := by
  cases s
  simp_all [Restartable.poll, Poll.map]

/-- Witness for C2: a rejected value (3 is odd) at elapsed 2 with deadline 5. -/
theorem poll_err_inTime_restarts_witness :
    (sampleState.poll (.Ready 3) 2).result = .Pending ∧
    (sampleState.poll (.Ready 3) 2).state.future = sampleState.factory () ∧
    (sampleState.poll (.Ready 3) 2).state.restarts = sampleState.restarts + 1 ∧
    (sampleState.poll (.Ready 3) 2).factoryCalls = 1 ∧
    (sampleState.poll (.Ready 3) 2).wakes = 1 :=
  poll_err_inTime_restarts sampleState 3 3 2 rfl rfl

/-- Claim C6: inner resolved, classifier fails, deadline exceeded: the combinator
resolves to `Err` carrying exactly this resumption's classification error and the
current restart count; no restart is performed (no factory call, `restarts`
unchanged). -/
theorem poll_err_timedOut_fails {Fut R T E : Type} (s : Restartable Fut R T E)
    (r : R) (e : E) (now : Nat) (h : s.test r = .error e)
    (ht : timedOut s.timeout (now - s.start.getD now) = true) :
    (s.poll (.Ready r) now).result = .Ready (.error (.Err e s.restarts)) ∧
    (s.poll (.Ready r) now).factoryCalls = 0 ∧
    (s.poll (.Ready r) now).state.restarts = s.restarts := by
  cases s
  simp_all [Restartable.poll, Poll.map]

/-- Witness for C6: a rejected value at elapsed 100 with deadline 5. -/
theorem poll_err_timedOut_fails_witness :
    (sampleState.poll (.Ready 3) 100).result = .Ready (.error (.Err 3 0)) ∧
    (sampleState.poll (.Ready 3) 100).factoryCalls = 0 ∧
    (sampleState.poll (.Ready 3) 100).state.restarts = sampleState.restarts :=
  poll_err_timedOut_fails sampleState 3 3 100 rfl rfl

/-- Claim C9: inner still suspended and deadline not exceeded: the combinator stays
`Pending` with no state change at all — no factory call, no wake, `restarts`,
`timeout`, `test` and `future` untouched — except that the start timestamp is
recorded if this is the first resumption. -/
theorem poll_pending_inTime_frame {Fut R T E : Type} (s : Restartable Fut R T E)
    (now : Nat) (ht : timedOut s.timeout (now - s.start.getD now) = false) :
    s.poll .Pending now =
      ⟨.Pending, { s with start := some (s.start.getD now) }, 0, 0⟩ := by
  cases s
  simp_all [Restartable.poll, Poll.map]

/-- Witness for C9 at elapsed 1 with deadline 5. -/
theorem poll_pending_inTime_frame_witness :
    sampleState.poll .Pending 1 =
      ⟨.Pending, { sampleState with start := some (sampleState.start.getD 1) }, 0, 0⟩ :=
  poll_pending_inTime_frame sampleState 1 rfl

/-- Claim C10: construction invokes the factory once to make the initial operation
(the `future` field is exactly `factory ()`), stores the factory, deadline and
classifier unmodified, and initialises `restarts = 0` with `start` unset. -/
theorem new_initial_state {Fut R T E : Type} (factory : Unit → Fut)
    (timeout : Option Nat) (test : R → Except E T) :
    Restartable.new factory timeout test =
      ({ future := factory (), start := none, factory := factory, timeout := timeout,
         test := test, restarts := 0 } : Restartable Fut R T E) := rfl

/-- Branch equation: inner still pending, deadline exceeded. -/
theorem pollEq_pending_true {Fut R T E : Type} (s : Restartable Fut R T E) (now : Nat)
    (ht : timedOut s.timeout (now - s.start.getD now) = true) :
    s.poll .Pending now =
      ⟨.Ready (.error .Timeout), { s with start := some (s.start.getD now) }, 0, 0⟩ := by
  cases s
  simp_all [Restartable.poll, Poll.map]

/-- Branch equation: inner still pending, deadline not exceeded. -/
theorem pollEq_pending_false {Fut R T E : Type} (s : Restartable Fut R T E) (now : Nat)
    (ht : timedOut s.timeout (now - s.start.getD now) = false) :
    s.poll .Pending now =
      ⟨.Pending, { s with start := some (s.start.getD now) }, 0, 0⟩ := by
  cases s
  simp_all [Restartable.poll, Poll.map]

/-- Branch equation: inner resolved and the test passes. -/
theorem pollEq_ready_ok {Fut R T E : Type} (s : Restartable Fut R T E) (r : R) (v : T)
    (now : Nat) (h : s.test r = .ok v) :
    s.poll (.Ready r) now =
      ⟨.Ready (.ok { value := v, duration := now - s.start.getD now,
                     restarts := s.restarts }),
        { s with start := some (s.start.getD now) }, 0, 0⟩ := by
  cases s
  simp_all [Restartable.poll, Poll.map]

/-- Branch equation: inner resolved, test fails, deadline not exceeded. -/
theorem pollEq_ready_err_false {Fut R T E : Type} (s : Restartable Fut R T E) (r : R)
    (e : E) (now : Nat) (h : s.test r = .error e)
    (ht : timedOut s.timeout (now - s.start.getD now) = false) :
    s.poll (.Ready r) now =
      ⟨.Pending,
        { s with start := some (s.start.getD now), future := s.factory (),
                 restarts := s.restarts + 1 }, 1, 1⟩ := by
  cases s
  simp_all [Restartable.poll, Poll.map]

/-- Branch equation: inner resolved, test fails, deadline exceeded. -/
theorem pollEq_ready_err_true {Fut R T E : Type} (s : Restartable Fut R T E) (r : R)
    (e : E) (now : Nat) (h : s.test r = .error e)
    (ht : timedOut s.timeout (now - s.start.getD now) = true) :
    s.poll (.Ready r) now =
      ⟨.Ready (.error (.Err e s.restarts)),
        { s with start := some (s.start.getD now) }, 0, 0⟩ := by
  cases s
  simp_all [Restartable.poll, Poll.map]

/-- Setting `start` to its own value is the identity. -/
theorem withStart_self {Fut R T E : Type} (s : Restartable Fut R T E) (st : Nat)
    (h : s.start = some st) : { s with start := some st } = s := by
  cases s
  simp_all

/-- At elapsed time zero the deadline is never exceeded. -/
theorem timedOut_zero (t : Option Nat) : timedOut t 0 = false := by
  cases t <;> simp [timedOut]

/-- One poll records the start timestamp and leaves the factory, deadline and
classifier untouched. -/
theorem poll_state_fields {Fut R T E : Type} (s : Restartable Fut R T E)
    (inner : Poll R) (now : Nat) :
    (s.poll inner now).state.start = some (s.start.getD now) ∧
    (s.poll inner now).state.timeout = s.timeout ∧
    (s.poll inner now).state.test = s.test ∧
    (s.poll inner now).state.factory = s.factory := by
  cases s with
  | mk fut st f t c k =>
    cases inner with
    | Pending =>
        cases ht : timedOut t (now - st.getD now) <;>
          simp_all [Restartable.poll, Poll.map]
    | Ready r =>
        cases h : c r <;> cases ht : timedOut t (now - st.getD now) <;>
          simp_all [Restartable.poll, Poll.map]

/-- One poll never decreases the restart counter, and increases it by exactly the
number of factory invocations it performed. -/
theorem poll_restarts_eq {Fut R T E : Type} (s : Restartable Fut R T E)
    (inner : Poll R) (now : Nat) :
    (s.poll inner now).state.restarts = s.restarts + (s.poll inner now).factoryCalls := by
  cases s with
  | mk fut st f t c k =>
    cases inner with
    | Pending =>
        cases ht : timedOut t (now - st.getD now) <;>
          simp_all [Restartable.poll, Poll.map]
    | Ready r =>
        cases h : c r <;> cases ht : timedOut t (now - st.getD now) <;>
          simp_all [Restartable.poll, Poll.map]

/-- Over any run, the final restart counter is the initial one plus the number of
restarts the run performed. -/
theorem runFull_restarts {Fut R T E : Type} (s : Restartable Fut R T E)
    (trace : List (Poll R × Nat)) :
    (runFull s trace).state.restarts = s.restarts + (runFull s trace).restarted := by
  induction trace generalizing s with
  | nil => simp [runFull]
  | cons p rest ih =>
      obtain ⟨inner, now⟩ := p
      simp only [runFull]
      cases hres : (s.poll inner now).result with
      | Ready r => simpa using poll_restarts_eq s inner now
      | Pending =>
          have hstep := poll_restarts_eq s inner now
          have hrec := ih (s.poll inner now).state
          simp only []
          omega

/-- With `start` recorded at `st`, a run of failing classifications (each observed
before the deadline) followed by a passing one resolves `Ok`, with the restart
counter advanced by exactly the number of failures. -/
theorem runPoll_fails_then_ok {Fut R T E : Type} (fut : Fut) (st : Nat)
    (f : Unit → Fut) (t : Option Nat) (c : R → Except E T) (k : Nat)
    (fails : List (R × Nat)) (rG : R) (v : T) (nG : Nat)
    (hf : ∀ p ∈ fails, (∃ e, c p.1 = .error e) ∧ timedOut t (p.2 - st) = false)
    (hok : c rG = .ok v) :
    runPoll (Restartable.mk fut (some st) f t c k)
      ((fails.map fun p => (Poll.Ready p.1, p.2)) ++ [(Poll.Ready rG, nG)]) =
      some (.ok { value := v, duration := nG - st, restarts := k + fails.length }) := by
  induction fails generalizing fut k with
  | nil =>
      simp [runPoll, pollEq_ready_ok (Restartable.mk fut (some st) f t c k) rG v nG hok]
  | cons p rest ih =>
      obtain ⟨r0, n0⟩ := p
      obtain ⟨⟨e, he⟩, hto⟩ := hf (r0, n0) (List.mem_cons_self _ _)
      have hstep := pollEq_ready_err_false (Restartable.mk fut (some st) f t c k)
        r0 e n0 he (by simpa using hto)
      have hih := ih (f ()) (k + 1) (fun q hq => hf q (List.mem_cons_of_mem _ hq))
      simp only [List.map_cons, List.cons_append, List.length_cons, runPoll, hstep,
        Option.getD_some, List.append_eq]
      rw [hih]
      simp [Nat.add_assoc, Nat.add_comm 1 rest.length]

/-- Claim C3: the restart counter never decreases across resumptions and equals the
number of failing classifications that triggered a restart; a first-poll pass gives
`Ok` with zero restarts, and `k` failures (none past the deadline) followed by a
pass give `Ok` with exactly `k` restarts. -/
theorem restarts_monotone_and_counted (Fut R T E : Type) :
    (∀ (s : Restartable Fut R T E) (inner : Poll R) (now : Nat),
      s.restarts ≤ (s.poll inner now).state.restarts) ∧
    (∀ (s : Restartable Fut R T E) (trace : List (Poll R × Nat)),
      (runFull s trace).state.restarts = s.restarts + (runFull s trace).restarted) ∧
    (∀ (factory : Unit → Fut) (timeout : Option Nat) (test : R → Except E T)
      (r : R) (v : T) (now : Nat), test r = .ok v →
      runPoll (Restartable.new factory timeout test) [(Poll.Ready r, now)] =
        some (.ok { value := v, duration := 0, restarts := 0 })) ∧
    (∀ (factory : Unit → Fut) (timeout : Option Nat) (test : R → Except E T)
      (r0 : R) (n0 : Nat) (fails : List (R × Nat)) (rG : R) (v : T) (nG : Nat),
      (∃ e, test r0 = .error e) →
      (∀ p ∈ fails, (∃ e, test p.1 = .error e) ∧
        timedOut timeout (p.2 - n0) = false) →
      test rG = .ok v →
      runPoll (Restartable.new factory timeout test)
        (((r0, n0) :: fails).map (fun p => (Poll.Ready p.1, p.2)) ++
          [(Poll.Ready rG, nG)]) =
        some (.ok { value := v, duration := nG - n0,
                    restarts := fails.length + 1 })) := by
  refine ⟨?_, ?_, ?_, ?_⟩
  · intro s inner now
    have h := poll_restarts_eq s inner now
    omega
  · intro s trace
    exact runFull_restarts s trace
  · intro factory timeout test r v now hok
    have hnew : Restartable.new factory timeout test =
        Restartable.mk (factory ()) none factory timeout test 0 := rfl
    rw [hnew]
    have h := pollEq_ready_ok (Restartable.mk (factory ()) none factory timeout test 0)
      r v now hok
    simp [runPoll, h]
  · intro factory timeout test r0 n0 fails rG v nG he hf hok
    obtain ⟨e, he⟩ := he
    have hnew : Restartable.new factory timeout test =
        Restartable.mk (factory ()) none factory timeout test 0 := rfl
    rw [hnew]
    have hstep := pollEq_ready_err_false
      (Restartable.mk (factory ()) none factory timeout test 0) r0 e n0 he
      (by simpa [Nat.sub_self] using timedOut_zero timeout)
    have hrun := runPoll_fails_then_ok (factory ()) n0 factory timeout test 1
      fails rG v nG hf hok
    simp only [List.map_cons, List.cons_append, runPoll, hstep, Option.getD_none,
      Nat.zero_add, List.append_eq]
    rw [hrun]
    simp [Nat.add_comm 1 fails.length]

/-- Witness for C3: one failure (3 is odd), another failure (5 is odd) within the
deadline, then a pass (4 is even): outcome `Ok` with two restarts. -/
theorem restarts_monotone_and_counted_witness :
    runPoll (Restartable.new sampleFactory (some 5) sampleTest)
      [(Poll.Ready 3, 0), (Poll.Ready 5, 1), (Poll.Ready 4, 2)] =
      some (.ok { value := 4, duration := 2, restarts := 2 }) := by
  have h := (restarts_monotone_and_counted Nat Nat Nat Nat).2.2.2 sampleFactory
    (some 5) sampleTest 3 0 [(5, 1)] 4 4 2 ⟨3, rfl⟩
    (by intro p hp
        simp only [List.mem_singleton] at hp
        subst hp
        exact ⟨⟨5, rfl⟩, rfl⟩)
    rfl
  simpa using h

/-- Claim C4: the timed-out predicate is deadline-set AND elapsed strictly greater
than the deadline; when elapsed equals the deadline exactly, the combinator is not
timed out (a pending poll at that very instant stays pending). -/
theorem timedOut_strict (Fut R T E : Type) :
    (∀ d e : Nat, timedOut (some d) e = decide (d < e)) ∧
    (∀ e : Nat, timedOut none e = false) ∧
    (∀ d : Nat, timedOut (some d) d = false) ∧
    (∀ (s : Restartable Fut R T E) (st d : Nat), s.start = some st →
      s.timeout = some d → (s.poll .Pending (st + d)).result = .Pending) := by
  refine ⟨fun d e => rfl, fun e => rfl, fun d => by simp [timedOut], ?_⟩
  intro s st d hst hto
  have ht : timedOut s.timeout ((st + d) - s.start.getD (st + d)) = false := by
    simp [hst, hto, timedOut]
  simp [pollEq_pending_false s (st + d) ht]

/-- Witness for C4: deadline 5 with elapsed exactly 5: not timed out, still pending. -/
theorem timedOut_strict_witness :
    (sampleState.poll .Pending 5).result = .Pending :=
  (timedOut_strict Nat Nat Nat Nat).2.2.2 sampleState 0 5 rfl rfl

/-- A block of pending resumptions, none past the deadline, neither resolves nor
changes the state: the run just continues on the remaining resumptions. -/
theorem runPoll_pending_lead {Fut R T E : Type} (fut : Fut) (st d : Nat)
    (f : Unit → Fut) (c : R → Except E T) (k : Nat) (ns : List Nat)
    (tail : List (Poll R × Nat)) (hns : ∀ n ∈ ns, n - st ≤ d) :
    runPoll (Restartable.mk fut (some st) f (some d) c k)
      ((ns.map fun n => ((Poll.Pending : Poll R), n)) ++ tail) =
      runPoll (Restartable.mk fut (some st) f (some d) c k) tail := by
  induction ns with
  | nil => simp
  | cons n rest ih =>
      have hle := hns n (List.mem_cons_self _ _)
      have ht : timedOut (Restartable.mk fut (some st) f (some d) c k).timeout
          (n - (Restartable.mk fut (some st) f (some d) c k).start.getD n) = false := by
        simp only [Option.getD_some, timedOut, decide_eq_false_iff_not, not_lt]
        exact hle
      have hstep := pollEq_pending_false (Restartable.mk fut (some st) f (some d) c k)
        n ht
      simp only [List.map_cons, List.cons_append, runPoll, hstep, Option.getD_some,
        List.append_eq]
      exact ih (fun m hm => hns m (List.mem_cons_of_mem _ hm))

/-- Claim C5: with a deadline `d` set and an operation that never resolves, the
combinator stays suspended on every resumption observing `elapsed ≤ d` and resolves
`Timeout` exactly on the first resumption observing `elapsed > d`, never earlier. -/
theorem pending_timeout_first_exceed (Fut R T E : Type) :
    (∀ (s : Restartable Fut R T E) (st d now : Nat), s.start = some st →
      s.timeout = some d → d < now - st →
      (s.poll .Pending now).result = .Ready (.error .Timeout)) ∧
    (∀ (s : Restartable Fut R T E) (st d now : Nat), s.start = some st →
      s.timeout = some d → now - st ≤ d →
      (s.poll .Pending now).result = .Pending) ∧
    (∀ (factory : Unit → Fut) (d : Nat) (test : R → Except E T) (n0 : Nat)
      (ns : List Nat), (∀ n ∈ ns, n - n0 ≤ d) →
      runPoll (Restartable.new factory (some d) test)
        ((n0 :: ns).map fun n => ((Poll.Pending : Poll R), n)) = none) ∧
    (∀ (factory : Unit → Fut) (d : Nat) (test : R → Except E T) (n0 : Nat)
      (ns : List Nat) (nBad : Nat), (∀ n ∈ ns, n - n0 ≤ d) → d < nBad - n0 →
      runPoll (Restartable.new factory (some d) test)
        (((n0 :: ns) ++ [nBad]).map fun n => ((Poll.Pending : Poll R), n)) =
        some (.error .Timeout)) := by
  refine ⟨?_, ?_, ?_, ?_⟩
  · intro s st d now hst hto hlt
    have ht : timedOut s.timeout (now - s.start.getD now) = true := by
      simp only [hst, hto, Option.getD_some, timedOut, decide_eq_true_eq]
      exact hlt
    simp [pollEq_pending_true s now ht]
  · intro s st d now hst hto hle
    have ht : timedOut s.timeout (now - s.start.getD now) = false := by
      simp only [hst, hto, Option.getD_some, timedOut, decide_eq_false_iff_not, not_lt]
      exact hle
    simp [pollEq_pending_false s now ht]
  · intro factory d test n0 ns hns
    have hnew : Restartable.new factory (some d) test =
        Restartable.mk (factory ()) none factory (some d) test 0 := rfl
    rw [hnew]
    have hstep := pollEq_pending_false
      (Restartable.mk (factory ()) none factory (some d) test 0) n0
      (by simpa [Nat.sub_self] using timedOut_zero (some d))
    simp only [List.map_cons, runPoll, hstep, Option.getD_none, List.append_eq]
    have hlead := runPoll_pending_lead (factory ()) n0 d factory test 0 ns
      ([] : List (Poll R × Nat)) hns
    simpa [runPoll] using hlead
  · intro factory d test n0 ns nBad hns hlt
    have hnew : Restartable.new factory (some d) test =
        Restartable.mk (factory ()) none factory (some d) test 0 := rfl
    rw [hnew]
    have hstep := pollEq_pending_false
      (Restartable.mk (factory ()) none factory (some d) test 0) n0
      (by simpa [Nat.sub_self] using timedOut_zero (some d))
    simp only [List.map_append, List.map_cons, List.map_nil, List.cons_append, runPoll,
      hstep, Option.getD_none, List.append_eq]
    have hlead := runPoll_pending_lead (factory ()) n0 d factory test 0 ns
      [((Poll.Pending : Poll R), nBad)] hns
    rw [hlead]
    have hbad : timedOut
        (Restartable.mk (factory ()) (some n0) factory (some d) test 0).timeout
        (nBad - (Restartable.mk (factory ()) (some n0) factory (some d)
          test 0).start.getD nBad) = true := by
      simp only [Option.getD_some, timedOut, decide_eq_true_eq]
      exact hlt
    simp [runPoll, pollEq_pending_true
      (Restartable.mk (factory ()) (some n0) factory (some d) test 0) nBad hbad]

/-- Witness for C5: deadline 5, polls at instants 0 and 3 stay pending, the poll at
instant 9 (elapsed 9 > 5) resolves `Timeout`. -/
theorem pending_timeout_first_exceed_witness :
    runPoll (Restartable.new sampleFactory (some 5) sampleTest)
      [((Poll.Pending : Poll Nat), 0), (Poll.Pending, 3), (Poll.Pending, 9)] =
      some (.error .Timeout) := by
  have h := (pending_timeout_first_exceed Nat Nat Nat Nat).2.2.2 sampleFactory 5
    sampleTest 0 [3] 9
    (by intro n hn
        simp only [List.mem_singleton] at hn
        omega)
    (by omega)
  simpa using h

/-- With no deadline a run can only ever resolve a passing classification. -/
theorem runPoll_no_deadline_ok {Fut R T E : Type} (s : Restartable Fut R T E)
    (trace : List (Poll R × Nat)) (r : Except (Failure E) (Success T))
    (hto : s.timeout = none) (h : runPoll s trace = some r) : ∃ sc, r = .ok sc := by
  induction trace generalizing s with
  | nil => simp [runPoll] at h
  | cons p rest ih =>
      obtain ⟨inner, now⟩ := p
      cases inner with
      | Pending =>
          have ht : timedOut s.timeout (now - s.start.getD now) = false := by
            simp [hto, timedOut]
          simp only [runPoll, pollEq_pending_false s now ht] at h
          refine ih _ ?_ h
          exact hto
      | Ready rr =>
          cases hc : s.test rr with
          | ok v =>
              simp only [runPoll, pollEq_ready_ok s rr v now hc,
                Option.some.injEq] at h
              exact ⟨_, h.symm⟩
          | error e =>
              have ht : timedOut s.timeout (now - s.start.getD now) = false := by
                simp [hto, timedOut]
              simp only [runPoll, pollEq_ready_err_false s rr e now hc ht] at h
              refine ih _ ?_ h
              exact hto

/-- The sample combinator with an unbounded (absent) deadline. -/
def sampleNoTimeout : Restartable Nat Nat Nat Nat where
  future := 0
  start := some 0
  factory := sampleFactory
  timeout := none
  test := sampleTest
  restarts := 0

/-- Claim C7: with an unbounded (absent) deadline the timed-out predicate is false on
every resumption, and the combinator never resolves to `Timeout` or `Err`: any
resolution of a run is a success. -/
theorem no_deadline_no_failure (Fut R T E : Type) :
    (∀ e : Nat, timedOut none e = false) ∧
    (∀ (s : Restartable Fut R T E) (trace : List (Poll R × Nat))
      (r : Except (Failure E) (Success T)), s.timeout = none →
      runPoll s trace = some r → ∃ sc, r = .ok sc) :=
  ⟨fun _ => rfl, fun s trace r hto h => runPoll_no_deadline_ok s trace r hto h⟩

/-- Witness for C7: no deadline, one failing classification then a passing one; the
resolved outcome is a success. -/
theorem no_deadline_no_failure_witness :
    ∃ sc, (Except.ok { value := 4, duration := 1, restarts := 1 } :
        Except (Failure Nat) (Success Nat)) = .ok sc :=
  (no_deadline_no_failure Nat Nat Nat Nat).2 sampleNoTimeout
    [(Poll.Ready 3, 0), (Poll.Ready 4, 1)] _ rfl rfl

/-- Claim C8: `start` is unset at construction and recorded on the first resumption
(then kept); the duration reported on success is the elapsed time measured on the
resolving resumption since that first resumption, and elapsed never decreases
between successive resumptions. -/
theorem start_recorded_duration_monotone (Fut R T E : Type) :
    (∀ (factory : Unit → Fut) (timeout : Option Nat) (test : R → Except E T),
      (Restartable.new factory timeout test).start = none) ∧
    (∀ (s : Restartable Fut R T E) (inner : Poll R) (now : Nat),
      (s.poll inner now).state.start = some (s.start.getD now)) ∧
    (∀ (s : Restartable Fut R T E) (st : Nat) (r : R) (v : T) (now : Nat),
      s.start = some st → s.test r = .ok v →
      (s.poll (.Ready r) now).result =
        .Ready (.ok { value := v, duration := now - st, restarts := s.restarts })) ∧
    (∀ (s : Restartable Fut R T E) (st : Nat) (r : R) (v : T) (n1 n2 : Nat),
      s.start = some st → s.test r = .ok v → n1 ≤ n2 →
      ∃ d1 d2, (s.poll (.Ready r) n1).result =
          .Ready (.ok { value := v, duration := d1, restarts := s.restarts }) ∧
        (s.poll (.Ready r) n2).result =
          .Ready (.ok { value := v, duration := d2, restarts := s.restarts }) ∧
        d1 ≤ d2) := by
  refine ⟨fun _ _ _ => rfl, ?_, ?_, ?_⟩
  · intro s inner now
    exact (poll_state_fields s inner now).1
  · intro s st r v now hst hok
    simp [pollEq_ready_ok s r v now hok, hst]
  · intro s st r v n1 n2 hst hok hle
    refine ⟨n1 - st, n2 - st, ?_, ?_, Nat.sub_le_sub_right hle st⟩
    · simp [pollEq_ready_ok s r v n1 hok, hst]
    · simp [pollEq_ready_ok s r v n2 hok, hst]

/-- Witness for C8: the same passing value polled at instants 2 and 7 (start 0)
reports durations 2 and 7 respectively. -/
theorem start_recorded_duration_monotone_witness :
    ∃ d1 d2, (sampleState.poll (.Ready 4) 2).result =
        .Ready (.ok { value := 4, duration := d1, restarts := sampleState.restarts }) ∧
      (sampleState.poll (.Ready 4) 7).result =
        .Ready (.ok { value := 4, duration := d2, restarts := sampleState.restarts }) ∧
      d1 ≤ d2 :=
  (start_recorded_duration_monotone Nat Nat Nat Nat).2.2.2 sampleState 0 4 4 2 7 rfl
    rfl (by omega)
